import Mathlib

/-!
# Verification of the git worktree/workspace orchestration layer

Shallow embedding of the core of `src-libs/workspace/src/lib.rs` and
`src-libs/git-tools/src/lib.rs` (a Rust workspace manager over git
worktrees plus a hybrid CLI/libgit2 git service), together with proofs
settling the frozen specification claims.

External effects (spawned `git` processes, libgit2 calls, the filesystem)
are modelled by explicit environments: an environment fixes the outcome of
each external operation, and the embedded functions thread an abstract
state and record the effects they perform, mirroring the control flow of
the Rust source line by line.
-/

namespace VibeGit

/-! ## Workspace manager (`workspace/src/lib.rs`)

Model for `WorkspaceManager::create_workspace` / `rollback_worktrees`
(lines 714-780) and the `WorktreeManager::cleanup_worktree` calls they
make.  At this level a worktree is identified by its path string; the
filesystem state is the list of worktree paths that currently exist.
`WorktreeManager::create_worktree` (branch creation + `ensure_worktree_exists`)
is a single fallible operation whose outcome the environment fixes per
worktree path: on success the worktree exists afterwards, on failure the
creation/cleanup retry logic has removed any partial directory, so the
path does not exist afterwards.  `cleanup_worktree` likewise either
succeeds (path removed) or fails best-effort (path possibly left behind,
error only logged by `rollback_worktrees`). -/

/-- `RepoInput` from workspace/src/lib.rs lines 100-110. -/
structure RepoInput where
  id : String
  name : String
  path : String
  target_branch : String
deriving DecidableEq, Repr

/-- `RepoWorktree` from workspace/src/lib.rs lines 86-97. -/
structure RepoWorktree where
  repo_id : String
  repo_name : String
  source_repo_path : String
  worktree_path : String
deriving DecidableEq, Repr

/-- `WorktreeContainer` from workspace/src/lib.rs lines 112-119. -/
structure WorktreeContainer where
  workspace_dir : String
  worktrees : List RepoWorktree
deriving DecidableEq, Repr

/-- `WorkspaceError` from workspace/src/lib.rs lines 126-149 (variants the
modelled code paths can produce). -/
inductive WorkspaceError where
  | git (msg : String)
  | io (msg : String)
  | invalidPath (msg : String)
  | repository (msg : String)
  | noRepositories
  | partialCreation (msg : String)
  | taskJoin (msg : String)
deriving DecidableEq, Repr

instance {ε α : Type} [DecidableEq ε] [DecidableEq α] : DecidableEq (Except ε α) :=
  fun a b =>
    match a, b with
    | .error e, .error e' =>
        if h : e = e' then .isTrue (by rw [h]) else .isFalse (by simp [h])
    | .ok x, .ok y =>
        if h : x = y then .isTrue (by rw [h]) else .isFalse (by simp [h])
    | .error _, .ok _ => .isFalse (by simp)
    | .ok _, .error _ => .isFalse (by simp)

/-- Environment fixing the outcomes of the external operations performed by
the workspace manager, keyed by worktree path. -/
structure WsEnv where
  /-- Does `WorktreeManager::create_worktree` succeed for this worktree path? -/
  createOk : String → Bool
  /-- Does `WorktreeManager::cleanup_worktree` succeed for this worktree path? -/
  cleanupOk : String → Bool

/-- Filesystem state at workspace granularity: the worktree paths that exist. -/
abbrev WsState := List String

/-- Events the workspace manager performs (used to state that the empty-repo
rejection creates nothing at all, including the workspace directory). -/
inductive WsEvent where
  | createDirAll (dir : String)
  | createWorktree (path : String)
  | cleanupWorktree (path : String)
deriving DecidableEq, Repr

/-- The worktree path `create_workspace` uses for a repo:
`workspace_dir.join(&repo.name)` (line 734). -/
def wtPath (workspace_dir : String) (repo : RepoInput) : String :=
  workspace_dir ++ "/" ++ repo.name

/-- `WorktreeManager::create_worktree` at workspace granularity (lines
232-261 composed with `ensure_worktree_exists`): outcome fixed by the
environment; success makes the path exist, failure leaves it absent
(the internal cleanup/retry removes any partial directory). -/
def create_worktree (env : WsEnv) (st : WsState) (path : String) :
    WsState × Except WorkspaceError Unit :=
  if env.createOk path then
    (path :: st, .ok ())
  else
    (st.filter (· ≠ path), .error (.git "worktree add failed"))

/-- `WorktreeManager::cleanup_worktree` at workspace granularity (lines
590-618): success removes the path, failure leaves the state unchanged. -/
def cleanup_worktree_ws (env : WsEnv) (st : WsState) (path : String) :
    WsState × Except WorkspaceError Unit :=
  if env.cleanupOk path then
    (st.filter (· ≠ path), .ok ())
  else
    (st, .error (.io "remove_dir_all failed"))

/-- `WorkspaceManager::rollback_worktrees` (lines 772-780): cleans up each
created worktree in creation order, logging (ignoring) per-worktree
failures. -/
def rollback_worktrees (env : WsEnv) (st : WsState) (wts : List RepoWorktree) :
    WsState :=
  match wts with
  | [] => st
  | wt :: rest =>
      rollback_worktrees env (cleanup_worktree_ws env st wt.worktree_path).1 rest

/-- The per-repo loop of `WorkspaceManager::create_workspace` (lines
733-763).  `created` accumulates the successfully created members in
reverse creation order. -/
def create_workspace_go (env : WsEnv) (workspace_dir branch_name : String)
    (st : WsState) (created : List RepoWorktree) :
    List RepoInput → WsState × List WsEvent × Except WorkspaceError WorktreeContainer
  | [] =>
      (st, [], .ok { workspace_dir := workspace_dir, worktrees := created.reverse })
  | repo :: rest =>
      let path := wtPath workspace_dir repo
      let c := create_worktree env st path
      match c.2 with
      | .ok _ =>
          let r := create_workspace_go env workspace_dir branch_name c.1
            ({ repo_id := repo.id, repo_name := repo.name,
               source_repo_path := repo.path, worktree_path := path } :: created) rest
          (r.1, .createWorktree path :: r.2.1, r.2.2)
      | .error _ =>
          (rollback_worktrees env c.1 created.reverse,
           .createWorktree path :: (created.reverse.map (.cleanupWorktree ·.worktree_path)),
           .error (.partialCreation ("Failed to create worktree for repo '" ++ repo.name ++ "'")))

/-- `WorkspaceManager::create_workspace` (lines 714-769): rejects an empty
repo list before doing anything, otherwise creates the workspace directory
and one worktree per repo in order, rolling every created worktree back on
the first failure. -/
def create_workspace (env : WsEnv) (st : WsState)
    (workspace_dir : String) (repos : List RepoInput) (branch_name : String) :
    WsState × List WsEvent × Except WorkspaceError WorktreeContainer :=
  if repos.isEmpty then
    (st, [], .error .noRepositories)
  else
    let r := create_workspace_go env workspace_dir branch_name st [] repos
    (r.1, .createDirAll workspace_dir :: r.2.1, r.2.2)

/-! ## Worktree manager (`workspace/src/lib.rs`, per-path lifecycle)

Model for `WorktreeManager::ensure_worktree_exists` (lines 264-291),
`is_worktree_properly_set_up` (294-323), `find_worktree_git_internal_name`
(326-366), `recreate_worktree_internal` / `create_worktree_with_retry` /
`comprehensive_cleanup` (373-531), `cleanup_worktree` (590-618) and
`move_worktree` (655-679).

The per-repo git state is `RepoFs`: the set of existing (canonical)
filesystem paths together with the repository's internal worktree-metadata
directory, one entry per linked worktree, each recording the canonicalized
parent of its `gitdir` back-link and whether `repo.find_worktree(name)`
succeeds for it.  Path strings are taken as already canonical
(`dunce::canonicalize` with identity fallback in the source).  Every
operation additionally records the ordered trace of lock acquisitions and
filesystem/git-metadata mutations it performs. -/

/-- One entry of the repository's `worktrees` metadata directory.
`gitdirParent` is the canonicalized parent directory of the path stored in
the entry's `gitdir` file; `findable` records whether
`repo.find_worktree(name)` succeeds (lines 316-319). -/
structure MetaEntry where
  name : String
  gitdirParent : String
  findable : Bool
deriving DecidableEq, Repr

/-- Abstract per-repository git/filesystem state. -/
structure RepoFs where
  /-- Filesystem paths that currently exist (canonical). -/
  fsPaths : List String
  /-- Entries of the repo's internal worktree-metadata directory, in the
  order `fs::read_dir` yields them. -/
  metaEntries : List MetaEntry
deriving DecidableEq, Repr

/-- Lock acquisitions and filesystem/git-metadata mutations, in program
order.  `mutate op p` is a mutation whose target is `p`. -/
inductive WtEvent where
  | lockAcquire (path : String)
  | mutate (op : String) (path : String)
deriving DecidableEq, Repr

/-- Outcomes of the external operations `ensure_worktree_exists` and
`cleanup_worktree` can perform. -/
structure WtEnv where
  /-- Does the first `git worktree add` attempt succeed (line 405)? -/
  addFirstOk : Bool
  /-- Does the retry `git worktree add` succeed (line 426)? -/
  addRetryOk : Bool
  /-- Metadata-directory name git assigns to the new worktree on success. -/
  freshName : String
  /-- Does `git2::Repository::open` on the source repo succeed
  (`comprehensive_cleanup_async`, line 489)? -/
  repoOpens : Bool
  /-- Result of inferring the git repo path from inside the worktree
  (`infer_git_repo_path`, lines 621-640). -/
  inferredRepo : Option String

/-- `WorktreeManager::find_worktree_git_internal_name` (lines 326-366):
first metadata entry whose recorded `gitdir` parent canonicalizes to the
worktree root. -/
def find_worktree_git_internal_name (st : RepoFs) (worktree_path : String) :
    Option String :=
  (st.metaEntries.find? (fun e => e.gitdirParent == worktree_path)).map (·.name)

/-- `WorktreeManager::is_worktree_properly_set_up` (lines 294-323): the
filesystem path exists and the registered metadata entry is findable via
`repo.find_worktree`. -/
def is_worktree_properly_set_up (st : RepoFs) (worktree_path : String) : Bool :=
  st.fsPaths.contains worktree_path &&
    match st.metaEntries.find? (fun e => e.gitdirParent == worktree_path) with
    | some e => e.findable
    | none => false

/-- `WorktreeManager::force_cleanup_metadata` (lines 463-477): remove the
(first) metadata entry registered for this worktree path, if any. -/
def force_cleanup_metadata (st : RepoFs) (worktree_path : String) :
    RepoFs × List WtEvent :=
  match find_worktree_git_internal_name st worktree_path with
  | some name =>
      ({ st with
         metaEntries := st.metaEntries.eraseP (fun e => e.gitdirParent == worktree_path) },
       [.mutate ("remove metadata " ++ name) worktree_path])
  | none => (st, [])

/-- Removal of the physical worktree directory when it exists
(`fs::remove_dir_all`, lines 523-525 and 423-425). -/
def remove_dir_if_exists (st : RepoFs) (worktree_path : String) :
    RepoFs × List WtEvent :=
  if st.fsPaths.contains worktree_path then
    ({ st with fsPaths := st.fsPaths.filter (· ≠ worktree_path) },
     [.mutate "remove_dir_all" worktree_path])
  else (st, [])

/-- `WorktreeManager::comprehensive_cleanup` (lines 507-531): best-effort
`git worktree remove --force`, metadata removal, physical directory
removal (the only fatal step, here always successful since the path is
simply dropped from the state), and `git worktree prune`. -/
def comprehensive_cleanup (repo_path : String) (st : RepoFs) (worktree_path : String) :
    RepoFs × List WtEvent :=
  let f := force_cleanup_metadata st worktree_path
  let d := remove_dir_if_exists f.1 worktree_path
  (d.1, .mutate "git worktree remove --force" worktree_path :: (f.2 ++ d.2) ++
    [.mutate "git worktree prune" repo_path])

/-- `WorktreeManager::comprehensive_cleanup_async` (lines 480-504): full
cleanup when the repository opens, bare directory deletion otherwise. -/
def comprehensive_cleanup_async (env : WtEnv) (repo_path : String)
    (st : RepoFs) (worktree_path : String) : RepoFs × List WtEvent :=
  if env.repoOpens then
    comprehensive_cleanup repo_path st worktree_path
  else
    remove_dir_if_exists st worktree_path

/-- State after a successful `git worktree add`: the worktree directory
exists and git has registered a fresh metadata entry for it (prepended,
matching a directory listing that now contains it). -/
def afterAdd (env : WtEnv) (st : RepoFs) (worktree_path : String) : RepoFs :=
  { fsPaths := worktree_path :: st.fsPaths,
    metaEntries := { name := env.freshName, gitdirParent := worktree_path,
                     findable := true } :: st.metaEntries }

/-- `WorktreeManager::create_worktree_with_retry` (lines 394-434): attempt
`git worktree add`; on failure force-clear stale metadata and any leftover
directory, then attempt exactly once more. -/
def create_worktree_with_retry (env : WtEnv) (st : RepoFs)
    (worktree_path : String) : RepoFs × List WtEvent × Except WorkspaceError Unit :=
  if env.addFirstOk then
    (afterAdd env st worktree_path, [.mutate "git worktree add" worktree_path], .ok ())
  else
    let f := force_cleanup_metadata st worktree_path
    let d := remove_dir_if_exists f.1 worktree_path
    if env.addRetryOk then
      (afterAdd env d.1 worktree_path,
       .mutate "git worktree add" worktree_path :: (f.2 ++ d.2) ++
         [.mutate "git worktree add" worktree_path],
       .ok ())
    else
      (d.1,
       .mutate "git worktree add" worktree_path :: (f.2 ++ d.2) ++
         [.mutate "git worktree add" worktree_path],
       .error (.git "worktree add failed twice"))

/-- `WorktreeManager::recreate_worktree_internal` (lines 374-391):
comprehensive cleanup, parent-directory creation, then creation with
retry. -/
def recreate_worktree_internal (env : WtEnv) (repo_path : String)
    (st : RepoFs) (worktree_path : String) :
    RepoFs × List WtEvent × Except WorkspaceError Unit :=
  let a := comprehensive_cleanup_async env repo_path st worktree_path
  let b := create_worktree_with_retry env a.1 worktree_path
  (b.1, a.2 ++ [.mutate "create_dir_all parent" worktree_path] ++ b.2.1, b.2.2)

/-- `WorktreeManager::ensure_worktree_exists` (lines 264-291): acquire the
per-path lock from the shared table, return immediately when the worktree
is already properly set up, otherwise recreate it. -/
def ensure_worktree_exists (env : WtEnv) (repo_path : String)
    (st : RepoFs) (worktree_path : String) :
    RepoFs × List WtEvent × Except WorkspaceError Unit :=
  if is_worktree_properly_set_up st worktree_path then
    (st, [.lockAcquire worktree_path], .ok ())
  else
    let r := recreate_worktree_internal env repo_path st worktree_path
    (r.1, .lockAcquire worktree_path :: r.2.1, r.2.2)

/-- `WorktreeCleanup` from workspace/src/lib.rs lines 67-74. -/
structure WorktreeCleanup where
  worktree_path : String
  git_repo_path : Option String
deriving DecidableEq, Repr

/-- `WorktreeManager::cleanup_worktree` (lines 590-618): acquire the
per-path lock, resolve the source repository (given or inferred), then
comprehensive or simple cleanup. -/
def cleanup_worktree (env : WtEnv) (st : RepoFs) (c : WorktreeCleanup) :
    RepoFs × List WtEvent :=
  let resolved := match c.git_repo_path with
    | some p => some p
    | none => env.inferredRepo
  match resolved with
  | some repo_path =>
      let a := comprehensive_cleanup_async env repo_path st c.worktree_path
      (a.1, .lockAcquire c.worktree_path :: a.2)
  | none =>
      let d := remove_dir_if_exists st c.worktree_path
      (d.1, .lockAcquire c.worktree_path :: d.2)

/-- `WorktreeManager::move_worktree` (lines 655-679): runs
`git worktree move` directly on a blocking task — no interaction with the
lock table. -/
def move_worktree (repo_path old_path new_path : String) : List WtEvent :=
  [.mutate "git worktree move" old_path, .mutate "git worktree move" new_path]

/-- Locking discipline: every mutation in the trace that targets `p` is
preceded by an acquisition of `p`'s lock. -/
def lockedBeforeMutation (p : String) (evs : List WtEvent) : Prop :=
  ∀ i : Fin evs.length,
    (∀ op, evs.get i = .mutate op p →
      ∃ j : Fin evs.length, j.val < i.val ∧ evs.get j = .lockAcquire p)

/-! ## Git CLI adapter (`git-tools/src/lib.rs`) -/

/-- `GitCliError` from git-tools/src/lib.rs lines 30-42. -/
inductive GitCliError where
  | notAvailable
  | commandFailed (msg : String)
  | authFailed
  | pushRejected
  | rebaseInProgress
deriving DecidableEq, Repr

/-- `GitServiceError` from git-tools/src/lib.rs lines 44-64 (variants the
modelled code paths can produce). -/
inductive GitServiceError where
  | git (msg : String)
  | gitCli (e : GitCliError)
  | ioError (msg : String)
  | invalidRepository (msg : String)
  | branchNotFound (name : String)
  | mergeConflicts (msg : String)
  | branchesDiverged (msg : String)
  | worktreeDirty (name : String) (details : String)
  | rebaseInProgress
deriving DecidableEq, Repr

/-- A git-command oracle: the result `GitCli::git` produces for a given
argument list (in a fixed repository/worktree). -/
abbrev GitRun := List String → Except GitCliError String

/-- `GitCli::merge_base` (git-tools/src/lib.rs lines 468-471):

`let out = self.git(wt, ["merge-base", "--fork-point", a, b]).unwrap_or(self.git(wt, ["merge-base", a, b])?);`

Rust evaluates `unwrap_or`'s argument eagerly: the fork-point command runs
first (receiver), then the plain merge-base command always runs as well,
and its failure propagates via `?` even when fork-point succeeded.  The
returned pair records the commands issued in order. -/
def merge_base (run : GitRun) (a b : String) :
    List (List String) × Except GitCliError String :=
  let forkCmd := ["merge-base", "--fork-point", a, b]
  let plainCmd := ["merge-base", a, b]
  let fork := run forkCmd
  match run plainCmd with
  | .error e => ([forkCmd, plainCmd], .error e)
  | .ok plain =>
      ([forkCmd, plainCmd],
       .ok (match fork with | .ok f => f.trim | .error _ => plain.trim))

/-! ## Conflict detection and recovery (`GitService`) -/

/-- `ConflictOp` from git-tools/src/lib.rs lines 189-193. -/
inductive ConflictOp where
  | rebase
  | merge
  | cherryPick
  | revert
deriving DecidableEq, Repr

/-- Which git command `abort_conflicts` ends up invoking. -/
inductive ConflictAction where
  | rebaseAbort
  | rebaseQuit
  | mergeAbort
  | cherryPickAbort
  | revertAbort
  | noOp
deriving DecidableEq, Repr

/-- Static snapshot of the worktree's in-progress markers and conflicted
files, as the probing commands observe them (no external interference
during the call). -/
structure ConflictEnv where
  /-- `is_rebase_in_progress`: rebase-merge/rebase-apply directory exists. -/
  rebase : Bool
  /-- `is_merge_in_progress`: `MERGE_HEAD` resolves. -/
  merge : Bool
  /-- `is_cherry_pick_in_progress`: `CHERRY_PICK_HEAD` resolves. -/
  cherryPick : Bool
  /-- `is_revert_in_progress`: `REVERT_HEAD` resolves. -/
  revert : Bool
  /-- `get_conflicted_files`: `git diff --name-only --diff-filter=U`. -/
  conflictedFiles : Except GitCliError (List String)

/-- `GitService::detect_conflict_op` (lines 1051-1058): probe the four
markers in priority order Rebase > Merge > CherryPick > Revert. -/
def detect_conflict_op (env : ConflictEnv) : Option ConflictOp :=
  if env.rebase then some .rebase
  else if env.merge then some .merge
  else if env.cherryPick then some .cherryPick
  else if env.revert then some .revert
  else none

/-- `GitCli::abort_rebase` (lines 510-513), including its own
re-check of the in-progress marker. -/
def cli_abort_rebase (env : ConflictEnv) : ConflictAction :=
  if !env.rebase then .noOp else .rebaseAbort

/-- `GitCli::quit_rebase` (lines 515-518). -/
def cli_quit_rebase (env : ConflictEnv) : ConflictAction :=
  if !env.rebase then .noOp else .rebaseQuit

/-- `GitCli::abort_merge` (lines 545-548). -/
def cli_abort_merge (env : ConflictEnv) : ConflictAction :=
  if !env.merge then .noOp else .mergeAbort

/-- `GitCli::abort_cherry_pick` (lines 550-553). -/
def cli_abort_cherry_pick (env : ConflictEnv) : ConflictAction :=
  if !env.cherryPick then .noOp else .cherryPickAbort

/-- `GitCli::abort_revert` (lines 555-558). -/
def cli_abort_revert (env : ConflictEnv) : ConflictAction :=
  if !env.revert then .noOp else .revertAbort

/-- `GitService::abort_conflicts` (lines 1080-1103): probe the markers in
priority order; for an active rebase, consult the conflicted-file list and
quit when it is empty, abort when it is not.  The value is the git command
invoked (command execution outcomes are abstracted: the claim concerns
which command is chosen). -/
def abort_conflicts (env : ConflictEnv) : Except GitServiceError ConflictAction :=
  if env.rebase then
    match env.conflictedFiles with
    | .error e => .error (.invalidRepository ("git diff failed: " ++ reprStr e))
    | .ok files =>
        if !files.isEmpty then .ok (cli_abort_rebase env)
        else .ok (cli_quit_rebase env)
  else if env.merge then .ok (cli_abort_merge env)
  else if env.cherryPick then .ok (cli_abort_cherry_pick env)
  else if env.revert then .ok (cli_abort_revert env)
  else .ok .noOp

/-! ## Squash-merge (`GitService::merge_changes`, lines 1148-1173) -/

/-- `WorktreeEntry` from git-tools/src/lib.rs lines 147-151. -/
structure WorktreeEntry where
  path : String
  branch : Option String
deriving DecidableEq, Repr

/-- Mutating git commands `merge_changes` can issue (recorded in program
order, whether or not the command then succeeds). -/
inductive GitMutation where
  | configSetIdentity (path : String)
  | checkout (path branch : String)
  | mergeSquashNoCommit (path from_branch : String)
  | commit (path : String)
  | updateRef (refname sha : String)
deriving DecidableEq, Repr

/-- Outcomes of the external operations `merge_changes` performs. -/
structure MergeEnv where
  /-- `get_branch_status(base_wt, task_branch, base_branch)` (line 1149):
  `(ahead, behind)` of the task branch relative to the base branch,
  computed read-only via `graph_ahead_behind`. -/
  branchStatus : Except GitServiceError (Nat × Nat)
  /-- `GitCli::list_worktrees` on the base worktree (line 1156). -/
  listWorktrees : Except GitCliError (List WorktreeEntry)
  /-- `GitCli::has_staged_changes` per worktree path (line 1160). -/
  hasStagedChanges : String → Except GitCliError Bool
  /-- Is a commit identity already configured for this path?
  (`ensure_cli_commit_identity`, lines 580-591, writes the config only
  when it is not; repo-open failure is not modelled.) -/
  identityConfigured : String → Bool
  /-- `git checkout <base>` inside `merge_squash_commit` (line 534). -/
  checkoutRes : String → Except GitCliError String
  /-- `git merge --squash --no-commit <from>` (line 535). -/
  mergeSquashRes : String → Except GitCliError String
  /-- `git commit -m <msg>` (line 536). -/
  commitRes : String → Except GitCliError String
  /-- `git rev-parse HEAD` (line 537). -/
  revParseHead : String → Except GitCliError String
  /-- `git update-ref` on the base worktree (line 541). -/
  updateRefRes : Except GitCliError Unit

/-- `GitCli::merge_squash_commit` (lines 533-539): checkout the base
branch, squash-merge the source branch without committing, commit, and
return the new HEAD id. -/
def merge_squash_commit (env : MergeEnv) (path base_branch from_branch : String) :
    List GitMutation × Except GitCliError String :=
  match env.checkoutRes path with
  | .error e => ([.checkout path base_branch], .error e)
  | .ok _ =>
      match env.mergeSquashRes path with
      | .error e =>
          ([.checkout path base_branch, .mergeSquashNoCommit path from_branch], .error e)
      | .ok _ =>
          match env.commitRes path with
          | .error e =>
              ([.checkout path base_branch, .mergeSquashNoCommit path from_branch,
                .commit path], .error e)
          | .ok _ =>
              ([.checkout path base_branch, .mergeSquashNoCommit path from_branch,
                .commit path],
               (env.revParseHead path).map (·.trim))

/-- The `for w in worktrees` loop of `merge_changes` (lines 1157-1171):
act on the first worktree that has the base branch checked out; report
"Base branch not checked out" when none does. -/
def merge_changes_loop (env : MergeEnv) (base_worktree_path task_branch_name
    base_branch_name commit_message : String) :
    List WorktreeEntry → List GitMutation × Except GitServiceError String
  | [] => ([], .error (.invalidRepository "Base branch not checked out"))
  | w :: rest =>
      if w.branch = some base_branch_name then
        match env.hasStagedChanges w.path with
        | .error e => ([], .error (.gitCli e))
        | .ok true =>
            ([], .error (.worktreeDirty base_branch_name "has staged changes"))
        | .ok false =>
            let idTrace : List GitMutation :=
              if env.identityConfigured w.path then [] else [.configSetIdentity w.path]
            let (sqTrace, sqRes) :=
              merge_squash_commit env w.path base_branch_name task_branch_name
            match sqRes with
            | .error e =>
                (idTrace ++ sqTrace,
                 .error (.invalidRepository ("CLI merge failed: " ++ reprStr e)))
            | .ok sha =>
                let refname := "refs/heads/" ++ task_branch_name
                match env.updateRefRes with
                | .error e =>
                    (idTrace ++ sqTrace ++ [.updateRef refname sha],
                     .error (.invalidRepository ("update-ref failed: " ++ reprStr e)))
                | .ok () =>
                    (idTrace ++ sqTrace ++ [.updateRef refname sha], .ok sha)
      else
        merge_changes_loop env base_worktree_path task_branch_name base_branch_name
          commit_message rest

/-- `GitService::merge_changes` (lines 1148-1173): check divergence first
(read-only), then locate a worktree with the base branch checked out,
squash-merge there and force-update the task branch ref.  The first
component is the trace of mutating git commands issued. -/
def merge_changes (env : MergeEnv) (base_worktree_path task_branch_name
    base_branch_name commit_message : String) :
    List GitMutation × Except GitServiceError String :=
  match env.branchStatus with
  | .error e => ([], .error e)
  | .ok (_ahead, task_behind) =>
      if task_behind > 0 then
        ([], .error (.branchesDiverged
          ("Cannot merge: base is " ++ toString task_behind ++ " commits ahead of task")))
      else
        match env.listWorktrees with
        | .error e => ([], .error (.gitCli e))
        | .ok worktrees =>
            merge_changes_loop env base_worktree_path task_branch_name
              base_branch_name commit_message worktrees

/-! ## Diff extraction (`GitService::get_diffs` → `convert_diff_to_file_diffs`)

`get_diffs` (lines 645-691) builds a tree-to-tree diff for each of its
three targets (worktree-vs-base-commit, branch-vs-base, commit-vs-parent),
optionally pathspec-filtered, runs rename detection, and hands the
resulting delta list to `convert_diff_to_file_diffs` (lines 693-724) —
the invariant claimed for every returned `Diff` is established by that
conversion, so it is modelled over an arbitrary delta list. -/

/-- `MAX_INLINE_DIFF_BYTES` (git-tools/src/lib.rs line 24). -/
def MAX_INLINE_DIFF_BYTES : Nat := 2 * 1024 * 1024

/-- `git2::Delta` status of a diff delta. -/
inductive DeltaStatus where
  | unmodified
  | added
  | deleted
  | modified
  | renamed
  | copied
  | ignored
  | untracked
  | typechange
  | unreadable
  | conflicted
deriving DecidableEq, Repr

/-- `DiffChangeKind` from git-tools/src/lib.rs lines 83-92. -/
inductive DiffChangeKind where
  | added
  | deleted
  | modified
  | renamed
  | copied
  | permissionChange
deriving DecidableEq, Repr

/-- One side of a delta (`delta.old_file()` / `delta.new_file()`): blob id
and path.  The zero oid is modelled as `""`. -/
structure DeltaFile where
  oid : String
  path : Option String
deriving DecidableEq, Repr

/-- A diff delta as `foreach` presents it. -/
structure DiffDelta where
  status : DeltaStatus
  old_file : DeltaFile
  new_file : DeltaFile
deriving DecidableEq, Repr

/-- A blob in the object database: binary flag, size in bytes, and its
content as a string when it is valid UTF-8. -/
structure Blob where
  is_binary : Bool
  size : Nat
  content : Option String
deriving DecidableEq, Repr

/-- The object database: `repo.find_blob`. -/
abbrev BlobStore := String → Option Blob

/-- `Diff` from git-tools/src/lib.rs lines 70-81.  Line stats
(`additions`/`deletions`, computed from a per-delta patch) are not part of
the claimed invariant and are modelled as absent. -/
structure Diff where
  change : DiffChangeKind
  old_path : Option String
  new_path : Option String
  old_content : Option String
  new_content : Option String
  content_omitted : Bool
deriving DecidableEq, Repr

/-- `GitService::read_blob_content` (lines 726-731): fails on the zero
oid, a missing blob, a binary blob, or invalid UTF-8. -/
def read_blob_content (repo : BlobStore) (oid : String) :
    Except GitServiceError String :=
  if oid = "" then .error (.invalidRepository "Zero OID")
  else
    match repo oid with
    | none => .error (.git "blob not found")
    | some blob =>
        if blob.is_binary then .error (.invalidRepository "Binary blob")
        else
          match blob.content with
          | some s => .ok s
          | none => .error (.invalidRepository "Invalid UTF-8")

/-- The per-side content-cap test of `convert_diff_to_file_diffs` (lines
701-708): the blob id is non-zero, resolves, is non-binary, and exceeds
`MAX_INLINE_DIFF_BYTES`. -/
def blob_exceeds_cap (repo : BlobStore) (oid : String) : Bool :=
  oid ≠ "" &&
    match repo oid with
    | some blob => !blob.is_binary && blob.size > MAX_INLINE_DIFF_BYTES
    | none => false

/-- The `change` mapping of `convert_diff_to_file_diffs` (lines 713-717). -/
def convert_change (status : DeltaStatus) : DiffChangeKind :=
  match status with
  | .added => DiffChangeKind.added
  | .deleted => DiffChangeKind.deleted
  | .modified => DiffChangeKind.modified
  | .renamed => DiffChangeKind.renamed
  | .copied => DiffChangeKind.copied
  | .untracked => DiffChangeKind.added
  | _ => DiffChangeKind.modified

/-- The body of the `diff.foreach` closure in `convert_diff_to_file_diffs`
(lines 697-721) for a single delta: `none` exactly when the delta is
skipped as `Unreadable`. -/
def convert_delta (repo : BlobStore) (delta : DiffDelta) : Option Diff :=
  if delta.status = .unreadable then none
  else
    let status := delta.status
    let content_omitted :=
      (status ≠ .added && blob_exceeds_cap repo delta.old_file.oid) ||
      (status ≠ .deleted && blob_exceeds_cap repo delta.new_file.oid)
    let old_path := if status = .added then none else delta.old_file.path
    let new_path := if status = .deleted then none else delta.new_file.path
    let old_content :=
      if content_omitted || status = .added then none
      else (read_blob_content repo delta.old_file.oid).toOption
    let new_content :=
      if content_omitted || status = .deleted then none
      else (read_blob_content repo delta.new_file.oid).toOption
    some { change := convert_change status, old_path := old_path, new_path := new_path,
           old_content := old_content, new_content := new_content,
           content_omitted := content_omitted }

/-- `GitService::convert_diff_to_file_diffs` (lines 693-724) over the
delta list of the computed diff. -/
def convert_diff_to_file_diffs (repo : BlobStore) (deltas : List DiffDelta) :
    List Diff :=
  deltas.filterMap (convert_delta repo)

/-- Well-formedness of a delta produced by `diff_tree_to_tree` (+
`find_similar`) as `get_diffs` builds it: tree-to-tree deltas carry one of
the six tree statuses, both sides record a path, a side's blob id is zero
exactly when that side does not exist (old side of an addition, new side
of a deletion), and non-zero ids resolve in the object database. -/
def wf_tree_delta (repo : BlobStore) (d : DiffDelta) : Prop :=
  (d.status = .added ∨ d.status = .deleted ∨ d.status = .modified ∨
    d.status = .renamed ∨ d.status = .copied ∨ d.status = .typechange) ∧
  d.old_file.path.isSome ∧ d.new_file.path.isSome ∧
  (d.old_file.oid = "" ↔ d.status = .added) ∧
  (d.new_file.oid = "" ↔ d.status = .deleted) ∧
  (d.old_file.oid ≠ "" → (repo d.old_file.oid).isSome) ∧
  (d.new_file.oid ≠ "" → (repo d.new_file.oid).isSome)

/-! ## Worktree-list parsing (`GitCli::list_worktrees`, lines 334-355)

The parser consumes the porcelain output of `git worktree list --porcelain`
line by line.  It is split here into per-line classification (the
`strip_prefix` chain) and a fold over classified lines, so that the
record-level behaviour can be proved by induction without string
reasoning; the string-level entry point composes the two exactly as the
source does. -/

/-- Classification of one (trimmed) porcelain line, mirroring the
`strip_prefix` chain of lines 342-349. -/
inductive LineTok where
  | blank
  | worktreeLine (path : String)
  | headLine (sha : String)
  | branchLine (value : String)
  | other
deriving DecidableEq, Repr

/-- Rust `str::trim` over the character list (ASCII whitespace is all the
porcelain format uses). -/
def trimChars (cs : List Char) : List Char :=
  ((cs.dropWhile Char.isWhitespace).reverse.dropWhile Char.isWhitespace).reverse

/-- Rust `str::trim`. -/
def rust_trim (s : String) : String := String.mk (trimChars s.toList)

/-- Rust `str::starts_with` on a literal. -/
def starts_with (s p : String) : Bool := s.toList.take p.toList.length = p.toList

/-- Dropping the matched literal of `strip_prefix` (its character
count). -/
def drop_chars (s : String) (n : Nat) : String := String.mk (s.toList.drop n)

/-- `line.trim()` followed by the `strip_prefix` chain (`"worktree "`,
`"HEAD "`, `"branch "`, in that order). -/
def classify_line (line : String) : LineTok :=
  let line := rust_trim line
  if line = "" then .blank
  else if starts_with line "worktree " then .worktreeLine (drop_chars line 9)
  else if starts_with line "HEAD " then .headLine (drop_chars line 5)
  else if starts_with line "branch " then .branchLine (drop_chars line 7)
  else .other

/-- `b.strip_prefix("refs/heads/")` (line 349): `none` when the recorded
branch ref is not under `refs/heads/`. -/
def stripRefsHeads (b : String) : Option String :=
  if starts_with b "refs/heads/" then some (drop_chars b 11) else none

/-- Parser state: `current_path`, `current_head`, `current_branch` and the
accumulated entries (lines 337-340). -/
structure PState where
  path : Option String
  head : Option String
  branch : Option String
  acc : List WorktreeEntry
deriving DecidableEq, Repr

/-- Closing a record (lines 343-346 and 351-353): `current_path.take()`
and `current_head.take()` always reset those two fields; an entry is
pushed, and `current_branch` taken, only when both were set. -/
def flush_record (st : PState) : PState :=
  match st.path, st.head with
  | some p, some _ =>
      { path := none, head := none, branch := none,
        acc := st.acc ++ [{ path := p, branch := st.branch }] }
  | _, _ => { st with path := none, head := none }

/-- One step of the parsing loop (lines 341-350). -/
def parse_tok (st : PState) (t : LineTok) : PState :=
  match t with
  | .blank => flush_record st
  | .worktreeLine p => { st with path := some p }
  | .headLine h => { st with head := some h }
  | .branchLine b => { st with branch := stripRefsHeads b }
  | .other => st

/-- The parsing loop over classified lines, with the final flush of lines
351-353. -/
def list_worktrees_toks (toks : List LineTok) : List WorktreeEntry :=
  (flush_record (toks.foldl parse_tok
    { path := none, head := none, branch := none, acc := [] })).acc

/-- Splitting a character list on `'\n'`. -/
def split_nl : List Char → List (List Char)
  | [] => [[]]
  | c :: cs =>
      if c = '\n' then [] :: split_nl cs
      else
        match split_nl cs with
        | [] => [[c]]
        | l :: ls => (c :: l) :: ls

/-- Rust `str::lines`: split on `'\n'`, the final line ending optional
(`'\r'` endings are absorbed by the subsequent `trim`). -/
def rust_lines (s : String) : List String :=
  let ls := (split_nl s.toList).map String.mk
  if ls.getLast? = some "" then ls.dropLast else ls

/-- `GitCli::list_worktrees` (lines 334-355) applied to the captured
porcelain output. -/
def list_worktrees (out : String) : List WorktreeEntry :=
  list_worktrees_toks ((rust_lines out).map classify_line)

/-- One blank-line-delimited record of `git worktree list --porcelain` at
token level: a `worktree` line and optional `HEAD` / `branch` lines. -/
structure PorcelainRecord where
  path : String
  head : Option String
  branch : Option String
deriving DecidableEq, Repr

/-- The token lines of one record. -/
def record_toks (r : PorcelainRecord) : List LineTok :=
  .worktreeLine r.path ::
    ((match r.head with | some h => [LineTok.headLine h] | none => []) ++
     (match r.branch with | some b => [LineTok.branchLine b] | none => []))

/-- Token lines of a record list, records separated by single blank
lines. -/
def render_toks : List PorcelainRecord → List LineTok
  | [] => []
  | [r] => record_toks r
  | r :: rest => record_toks r ++ .blank :: render_toks rest

/-- The entries the parser extracts, record by record: one entry per
record that has a `HEAD` line, never skipping by position. -/
def expected_entries (records : List PorcelainRecord) : List WorktreeEntry :=
  records.filterMap fun r =>
    r.head.map fun _ => { path := r.path, branch := r.branch.bind stripRefsHeads }

/-! ## Theorems -/

/-! ### Workspace creation: all-or-nothing (C1, C2) -/

/-- Membership after `rollback_worktrees` when the individual cleanups
succeed: exactly the incoming paths that are not among the rolled-back
worktrees. -/
theorem mem_rollback_worktrees (env : WsEnv) (wts : List RepoWorktree)
    (st : WsState) (p : String)
    (hclean : ∀ wt ∈ wts, env.cleanupOk wt.worktree_path = true) :
    p ∈ rollback_worktrees env st wts ↔
      p ∈ st ∧ ∀ wt ∈ wts, p ≠ wt.worktree_path := by
  induction wts generalizing st with
  | nil => simp [rollback_worktrees]
  | cons wt rest ih =>
      have hc : env.cleanupOk wt.worktree_path = true := hclean wt (by simp)
      rw [rollback_worktrees, ih _ (fun w hw => hclean w (by simp [hw]))]
      simp only [cleanup_worktree_ws, hc, if_pos, List.mem_filter, List.mem_cons,
        forall_eq_or_imp, decide_eq_true_eq]
      tauto

/-- If some repo's worktree creation fails, the creation loop reports a
partial-creation error and (cleanups succeeding) its final state keeps
only incoming paths that are not among the accumulated members. -/
theorem create_workspace_go_fail (env : WsEnv) (wsDir bn : String)
    (repos : List RepoInput) (st : WsState) (created : List RepoWorktree)
    (hfail : ∃ r ∈ repos, env.createOk (wtPath wsDir r) = false)
    (hclean : ∀ p, env.cleanupOk p = true) :
    (∃ msg, (create_workspace_go env wsDir bn st created repos).2.2 =
      .error (.partialCreation msg)) ∧
    ∀ p ∈ (create_workspace_go env wsDir bn st created repos).1,
      p ∈ st ∧ ∀ wt ∈ created, p ≠ wt.worktree_path := by
  induction repos generalizing st created with
  | nil => simp at hfail
  | cons r rest ih =>
      cases hr : env.createOk (wtPath wsDir r) with
      | true =>
          have hfail' : ∃ r' ∈ rest, env.createOk (wtPath wsDir r') = false := by
            obtain ⟨r', hmem, hno⟩ := hfail
            rcases List.mem_cons.mp hmem with h | h
            · rw [h] at hno; rw [hno] at hr; cases hr
            · exact ⟨r', h, hno⟩
          obtain ⟨herr, hmem'⟩ := ih
            (wtPath wsDir r :: st)
            ({ repo_id := r.id, repo_name := r.name,
               source_repo_path := r.path, worktree_path := wtPath wsDir r } :: created)
            hfail'
          rw [create_workspace_go]
          simp only [create_worktree, hr, if_true, ite_true]
          refine ⟨herr, fun p hp => ?_⟩
          obtain ⟨hpin, hall⟩ := hmem' p hp
          rcases List.mem_cons.mp hpin with h | h
          · exact absurd h (hall _ (List.mem_cons_self _ _))
          · exact ⟨h, fun wt hwt => hall wt (by simp [hwt])⟩
      | false =>
          rw [create_workspace_go]
          simp only [create_worktree, hr, Bool.false_eq_true, if_false, ite_false]
          refine ⟨⟨_, rfl⟩, fun p hp => ?_⟩
          rw [mem_rollback_worktrees env _ _ _ (fun w _ => hclean w.worktree_path)] at hp
          obtain ⟨hpin, hall⟩ := hp
          exact ⟨(List.mem_filter.mp hpin).1,
            fun wt hwt => hall wt (List.mem_reverse.mpr hwt)⟩

/-- C1: `create_workspace` called with an empty repo list returns
`NoRepositories` having created nothing (state and event trace untouched);
and if creating the worktree for some repo fails, a partial-creation error
is returned — no `WorktreeContainer` is produced — and, the rollback
cleanups succeeding, none of the requested worktrees exist afterwards
(every worktree created before the failure has been cleaned up). -/
theorem create_workspace_all_or_nothing (env : WsEnv) (st : WsState)
    (workspace_dir branch_name : String) (repos : List RepoInput) :
    (repos = [] →
      create_workspace env st workspace_dir repos branch_name =
        (st, [], .error .noRepositories)) ∧
    ((∃ r ∈ repos, env.createOk (wtPath workspace_dir r) = false) →
     (∀ r ∈ repos, wtPath workspace_dir r ∉ st) →
     (∀ p, env.cleanupOk p = true) →
     (∃ msg, (create_workspace env st workspace_dir repos branch_name).2.2 =
        .error (.partialCreation msg)) ∧
     ∀ r ∈ repos,
       wtPath workspace_dir r ∉
         (create_workspace env st workspace_dir repos branch_name).1) := by
  constructor
  · rintro rfl
    simp [create_workspace]
  · intro hfail hinit hclean
    have hne : repos.isEmpty = false := by
      obtain ⟨r, hmem, _⟩ := hfail
      cases repos with
      | nil => simp at hmem
      | cons _ _ => rfl
    obtain ⟨herr, hmem⟩ :=
      create_workspace_go_fail env workspace_dir branch_name repos st [] hfail hclean
    simp only [create_workspace, hne, Bool.false_eq_true, if_neg, not_false_iff]
    refine ⟨herr, fun r hr hcontra => ?_⟩
    exact hinit r hr (hmem _ hcontra).1

/-- Concrete scenario shared by the workspace theorems: three repos, the
second one's worktree creation fails, all cleanups succeed. -/
def env3 : WsEnv :=
  { createOk := fun p => p ≠ "/ws/r2", cleanupOk := fun _ => true }

/-- The three repo inputs of the concrete scenario. -/
def repos3 : List RepoInput :=
  [{ id := "1", name := "r1", path := "/src/r1", target_branch := "main" },
   { id := "2", name := "r2", path := "/src/r2", target_branch := "main" },
   { id := "3", name := "r3", path := "/src/r3", target_branch := "main" }]

/-- Witness for C1: on the concrete scenario, the empty list is rejected
untouched, and the failure on `r2` yields a partial-creation error with no
requested worktree existing afterwards. -/
theorem create_workspace_all_or_nothing_witness :
    create_workspace env3 [] "/ws" ([] : List RepoInput) "task" =
      ([], [], .error .noRepositories) ∧
    ((∃ msg, (create_workspace env3 [] "/ws" repos3 "task").2.2 =
        .error (.partialCreation msg)) ∧
     ∀ r ∈ repos3, wtPath "/ws" r ∉ (create_workspace env3 [] "/ws" repos3 "task").1) :=
  ⟨(create_workspace_all_or_nothing env3 [] "/ws" "task" []).1 rfl,
   (create_workspace_all_or_nothing env3 [] "/ws" "task" repos3).2
     (by decide) (by decide) (fun _ => rfl)⟩

/-- C2 counterexample: with three repos and the failure on repository 2,
the claim asserts that repository 1's worktree still exists immediately
after `create_workspace` returns; in fact the rollback has removed it —
the final state is empty. -/
theorem create_workspace_rollback_cex :
    (create_workspace env3 [] "/ws" repos3 "task").2.2 =
      .error (.partialCreation "Failed to create worktree for repo 'r2'") ∧
    env3.createOk "/ws/r1" = true ∧ env3.createOk "/ws/r2" = false ∧
    (create_workspace env3 [] "/ws" repos3 "task").1 = [] ∧
    "/ws/r1" ∉ (create_workspace env3 [] "/ws" repos3 "task").1 := by
  decide

/-- The creation loop on `pre ++ rk :: post` where every repo in `pre`
succeeds and `rk` fails: the error names `rk`, and the final state keeps
only incoming paths not among the accumulated members. -/
theorem create_workspace_go_fail_at (env : WsEnv) (wsDir bn : String)
    (pre post : List RepoInput) (rk : RepoInput)
    (st : WsState) (created : List RepoWorktree)
    (hpre : ∀ r ∈ pre, env.createOk (wtPath wsDir r) = true)
    (hk : env.createOk (wtPath wsDir rk) = false)
    (hclean : ∀ p, env.cleanupOk p = true) :
    (create_workspace_go env wsDir bn st created (pre ++ rk :: post)).2.2 =
      .error (.partialCreation ("Failed to create worktree for repo '" ++ rk.name ++ "'")) ∧
    ∀ p ∈ (create_workspace_go env wsDir bn st created (pre ++ rk :: post)).1,
      p ∈ st ∧ ∀ wt ∈ created, p ≠ wt.worktree_path := by
  induction pre generalizing st created with
  | nil =>
      rw [List.nil_append, create_workspace_go]
      simp only [create_worktree, hk, Bool.false_eq_true, if_false, ite_false]
      refine ⟨by trivial, fun p hp => ?_⟩
      rw [mem_rollback_worktrees env _ _ _ (fun w _ => hclean w.worktree_path)] at hp
      obtain ⟨hpin, hall⟩ := hp
      exact ⟨(List.mem_filter.mp hpin).1,
        fun wt hwt => hall wt (List.mem_reverse.mpr hwt)⟩
  | cons r pre' ih =>
      have hr : env.createOk (wtPath wsDir r) = true := hpre r (by simp)
      obtain ⟨herr, hmem'⟩ := ih
        (wtPath wsDir r :: st)
        ({ repo_id := r.id, repo_name := r.name,
           source_repo_path := r.path, worktree_path := wtPath wsDir r } :: created)
        (fun r' hr' => hpre r' (by simp [hr']))
      rw [List.cons_append, create_workspace_go]
      simp only [create_worktree, hr, if_true, ite_true]
      refine ⟨herr, fun p hp => ?_⟩
      obtain ⟨hpin, hall⟩ := hmem' p hp
      rcases List.mem_cons.mp hpin with h | h
      · exact absurd h (hall _ (List.mem_cons_self _ _))
      · exact ⟨h, fun wt hwt => hall wt (by simp [hwt])⟩

/-- C2 (amended): if `create_workspace` fails while creating the worktree
for repository k (every earlier repo having succeeded), the rollback
removes the earlier worktrees again, so immediately afterwards — the
rollback cleanups succeeding — none of the requested worktrees exist; in
particular repository k's worktree does not exist, and the error names
repository k. -/
theorem create_workspace_rollback_amended (env : WsEnv) (st : WsState)
    (workspace_dir branch_name : String) (pre post : List RepoInput) (rk : RepoInput)
    (hpre : ∀ r ∈ pre, env.createOk (wtPath workspace_dir r) = true)
    (hk : env.createOk (wtPath workspace_dir rk) = false)
    (hinit : ∀ r ∈ pre ++ rk :: post, wtPath workspace_dir r ∉ st)
    (hclean : ∀ p, env.cleanupOk p = true) :
    (create_workspace env st workspace_dir (pre ++ rk :: post) branch_name).2.2 =
      .error (.partialCreation ("Failed to create worktree for repo '" ++ rk.name ++ "'")) ∧
    ∀ r ∈ pre ++ rk :: post,
      wtPath workspace_dir r ∉
        (create_workspace env st workspace_dir (pre ++ rk :: post) branch_name).1 := by
  have hne : (pre ++ rk :: post).isEmpty = false := by
    cases pre <;> rfl
  obtain ⟨herr, hmem⟩ :=
    create_workspace_go_fail_at env workspace_dir branch_name pre post rk st []
      hpre hk hclean
  simp only [create_workspace, hne, Bool.false_eq_true, if_neg, not_false_iff]
  exact ⟨herr, fun r hr hcontra => hinit r hr (hmem _ hcontra).1⟩

/-- Witness for the amended C2 on the concrete three-repo scenario. -/
theorem create_workspace_rollback_amended_witness :
    (create_workspace env3 [] "/ws" repos3 "task").2.2 =
      .error (.partialCreation "Failed to create worktree for repo 'r2'") ∧
    ∀ r ∈ repos3, wtPath "/ws" r ∉ (create_workspace env3 [] "/ws" repos3 "task").1 :=
  create_workspace_rollback_amended env3 [] "/ws" "task"
    [{ id := "1", name := "r1", path := "/src/r1", target_branch := "main" }]
    [{ id := "3", name := "r3", path := "/src/r3", target_branch := "main" }]
    { id := "2", name := "r2", path := "/src/r2", target_branch := "main" }
    (by decide) (by decide) (by decide) (fun _ => rfl)

/-! ### Worktree lifecycle: idempotence (C3) and locking (C9) -/

/-- After a successful `git worktree add` the worktree is present-valid:
the path exists and the fresh metadata entry is registered and findable. -/
theorem is_worktree_properly_set_up_afterAdd (env : WtEnv) (st : RepoFs) (wt : String) :
    is_worktree_properly_set_up (afterAdd env st wt) wt = true := by
  simp [is_worktree_properly_set_up, afterAdd, List.find?]

/-- If the creation-with-retry succeeds, the resulting state is the
post-`worktree add` state over some intermediate state. -/
theorem create_worktree_with_retry_ok_state (env : WtEnv) (st : RepoFs) (wt : String)
    (h : (create_worktree_with_retry env st wt).2.2 = .ok ()) :
    ∃ X, (create_worktree_with_retry env st wt).1 = afterAdd env X wt := by
  cases h1 : env.addFirstOk with
  | true =>
      refine ⟨st, ?_⟩
      simp [create_worktree_with_retry, h1]
  | false =>
      cases h2 : env.addRetryOk with
      | true =>
          refine ⟨(remove_dir_if_exists (force_cleanup_metadata st wt).1 wt).1, ?_⟩
          simp [create_worktree_with_retry, h1, h2]
      | false =>
          exfalso
          simp [create_worktree_with_retry, h1, h2] at h

/-- A successful `ensure_worktree_exists` leaves a present-valid state. -/
theorem ensure_worktree_exists_ok_properly (env : WtEnv) (repo_path : String)
    (st : RepoFs) (wt : String)
    (h : (ensure_worktree_exists env repo_path st wt).2.2 = .ok ()) :
    is_worktree_properly_set_up (ensure_worktree_exists env repo_path st wt).1 wt = true := by
  cases hset : is_worktree_properly_set_up st wt with
  | true => simp [ensure_worktree_exists, hset]
  | false =>
      simp only [ensure_worktree_exists, hset, Bool.false_eq_true, if_false,
        ite_false, recreate_worktree_internal] at h ⊢
      obtain ⟨X, hX⟩ := create_worktree_with_retry_ok_state env _ wt h
      rw [hX]
      exact is_worktree_properly_set_up_afterAdd env X wt

/-- C3: `ensure_worktree_exists` is idempotent.  From any present-valid
state (path exists and the repo's worktree metadata holds a findable entry
whose gitdir back-link canonicalizes to the path) a call returns success
having performed nothing beyond acquiring the per-path lock — no
filesystem or git-metadata mutation, state unchanged; consequently, after
any successful call, an immediately repeated call (no external
interference) performs no filesystem work either. -/
theorem ensure_worktree_exists_idempotent (env : WtEnv) (repo_path : String)
    (st : RepoFs) (worktree_path : String) :
    (is_worktree_properly_set_up st worktree_path = true →
      ensure_worktree_exists env repo_path st worktree_path =
        (st, [.lockAcquire worktree_path], .ok ())) ∧
    (∀ st' evs, ensure_worktree_exists env repo_path st worktree_path =
        (st', evs, .ok ()) →
      ensure_worktree_exists env repo_path st' worktree_path =
        (st', [.lockAcquire worktree_path], .ok ())) := by
  constructor
  · intro h
    simp [ensure_worktree_exists, h]
  · intro st' evs h
    have hok : (ensure_worktree_exists env repo_path st worktree_path).2.2 = .ok () := by
      rw [h]
    have hst : (ensure_worktree_exists env repo_path st worktree_path).1 = st' := by
      rw [h]
    have hprop := ensure_worktree_exists_ok_properly env repo_path st worktree_path hok
    rw [hst] at hprop
    simp [ensure_worktree_exists, hprop]

/-- A present-valid worktree state: path exists, metadata registered and
findable. -/
def stValid : RepoFs :=
  { fsPaths := ["/wt"],
    metaEntries := [{ name := "wt", gitdirParent := "/wt", findable := true }] }

/-- A stale state: the directory exists but git has no metadata for it. -/
def stStale : RepoFs := { fsPaths := ["/wt"], metaEntries := [] }

/-- Environment for the concrete worktree scenarios. -/
def envWt : WtEnv :=
  { addFirstOk := true, addRetryOk := true, freshName := "wt",
    repoOpens := true, inferredRepo := none }

/-- Witness for C3: on a concrete present-valid state the call is a pure
lock-acquire no-op, and after recreating from a concrete stale state the
repeated call is a no-op as well. -/
theorem ensure_worktree_exists_idempotent_witness :
    ensure_worktree_exists envWt "/repo" stValid "/wt" =
      (stValid, [.lockAcquire "/wt"], .ok ()) ∧
    ensure_worktree_exists envWt "/repo"
        (ensure_worktree_exists envWt "/repo" stStale "/wt").1 "/wt" =
      ((ensure_worktree_exists envWt "/repo" stStale "/wt").1,
       [.lockAcquire "/wt"], .ok ()) :=
  ⟨(ensure_worktree_exists_idempotent envWt "/repo" stValid "/wt").1 (by decide),
   (ensure_worktree_exists_idempotent envWt "/repo" stStale "/wt").2
     (ensure_worktree_exists envWt "/repo" stStale "/wt").1
     (ensure_worktree_exists envWt "/repo" stStale "/wt").2.1 (by decide)⟩

/-- C9 counterexample: `move_worktree` mutates the worktree path without
ever acquiring that path's lock from the shared table, so the claimed
acquire-before-mutate discipline fails for the move operation. -/
theorem move_worktree_unlocked_cex :
    ¬ lockedBeforeMutation "/a" (move_worktree "/repo" "/a" "/b") := by
  intro h
  obtain ⟨j, hj, _⟩ := h ⟨0, by decide⟩ "git worktree move" rfl
  exact absurd hj (Nat.not_lt_zero _)

/-- A trace that begins by acquiring `p`'s lock satisfies the
acquire-before-mutate discipline for `p`. -/
theorem lockedBeforeMutation_cons_lock (p : String) (rest : List WtEvent) :
    lockedBeforeMutation p (.lockAcquire p :: rest) := by
  intro i op hget
  obtain ⟨iv, hi⟩ := i
  cases iv with
  | zero => exact absurd hget (by simp [List.get])
  | succ k => exact ⟨⟨0, Nat.succ_pos _⟩, Nat.succ_pos _, rfl⟩

/-- C9 (amended): `ensure_worktree_exists` (the creation path of
`create_worktree`) and `cleanup_worktree` acquire the worktree path's
exclusive lock from the shared table before any filesystem or
git-metadata mutation — same-path calls serialize on that lock — but
`move_worktree` acquires no lock at all. -/
theorem worktree_lifecycle_lock_discipline :
    (∀ (env : WtEnv) (repo_path : String) (st : RepoFs) (worktree_path : String),
      lockedBeforeMutation worktree_path
        (ensure_worktree_exists env repo_path st worktree_path).2.1) ∧
    (∀ (env : WtEnv) (st : RepoFs) (c : WorktreeCleanup),
      lockedBeforeMutation c.worktree_path (cleanup_worktree env st c).2) ∧
    (∀ repo_path old_path new_path p,
      WtEvent.lockAcquire p ∉ move_worktree repo_path old_path new_path) := by
  refine ⟨?_, ?_, ?_⟩
  · intro env repo_path st worktree_path
    cases h : is_worktree_properly_set_up st worktree_path with
    | true =>
        simp only [ensure_worktree_exists, h, if_true, ite_true]
        exact lockedBeforeMutation_cons_lock worktree_path []
    | false =>
        simp only [ensure_worktree_exists, h, Bool.false_eq_true, if_false, ite_false]
        exact lockedBeforeMutation_cons_lock worktree_path _
  · intro env st c
    cases hg : c.git_repo_path with
    | some p =>
        simp only [cleanup_worktree, hg]
        exact lockedBeforeMutation_cons_lock c.worktree_path _
    | none =>
        cases hi : env.inferredRepo with
        | some p =>
            simp only [cleanup_worktree, hg, hi]
            exact lockedBeforeMutation_cons_lock c.worktree_path _
        | none =>
            simp only [cleanup_worktree, hg, hi]
            exact lockedBeforeMutation_cons_lock c.worktree_path _
  · intro repo_path old_path new_path p hmem
    simp [move_worktree] at hmem

/-! ### merge-base fallback (C4) -/

/-- Command oracle exhibiting the failing input for the merge-base
fallback: the fork-point lookup succeeds, the plain merge-base command
fails. -/
def cexRun : GitRun := fun cmd =>
  if cmd = ["merge-base", "--fork-point", "main", "task"] then .ok "abc123\n"
  else .error (.commandFailed "fatal: no merge base")

/-- C4 (code bug): on an input where the fork-point lookup succeeds,
`merge_base` still issues the plain merge-base command — `unwrap_or`
evaluates its argument eagerly — and, the plain command failing, returns
its error instead of the fork-point result the fallback was meant to
protect. -/
theorem merge_base_eager_fallback_bug :
    cexRun ["merge-base", "--fork-point", "main", "task"] = .ok "abc123\n" ∧
    (merge_base cexRun "main" "task").1 =
      [["merge-base", "--fork-point", "main", "task"], ["merge-base", "main", "task"]] ∧
    (merge_base cexRun "main" "task").2 = .error (.commandFailed "fatal: no merge base") := by
  refine ⟨rfl, rfl, rfl⟩

/-! ### Conflict recovery (C6) -/

/-- C6: `abort_conflicts` probes the markers in priority order
Rebase > Merge > CherryPick > Revert and acts on the first one found; for
an active rebase it quits when the conflicted-file set is empty and aborts
when it is not. -/
theorem abort_conflicts_priority (env : ConflictEnv) :
    (env.rebase = true → ∀ files, env.conflictedFiles = .ok files →
      abort_conflicts env =
        .ok (if files.isEmpty then .rebaseQuit else .rebaseAbort)) ∧
    (env.rebase = false → env.merge = true →
      abort_conflicts env = .ok .mergeAbort) ∧
    (env.rebase = false → env.merge = false → env.cherryPick = true →
      abort_conflicts env = .ok .cherryPickAbort) ∧
    (env.rebase = false → env.merge = false → env.cherryPick = false →
      env.revert = true → abort_conflicts env = .ok .revertAbort) := by
  refine ⟨?_, ?_, ?_, ?_⟩
  · intro hr files hf
    cases hfe : files.isEmpty with
    | true =>
        simp [abort_conflicts, hr, hf, hfe, cli_quit_rebase]
    | false =>
        simp [abort_conflicts, hr, hf, hfe, cli_abort_rebase]
  · intro hr hm
    simp [abort_conflicts, hr, hm, cli_abort_merge]
  · intro hr hm hc
    simp [abort_conflicts, hr, hm, hc, cli_abort_cherry_pick]
  · intro hr hm hc hv
    simp [abort_conflicts, hr, hm, hc, hv, cli_abort_revert]

/-- Rebase in progress, no conflicted files left. -/
def envRebaseClean : ConflictEnv :=
  { rebase := true, merge := false, cherryPick := false, revert := false,
    conflictedFiles := .ok [] }

/-- Rebase in progress with one conflicted file; a merge marker also
present, to exhibit the priority. -/
def envRebaseConflicted : ConflictEnv :=
  { rebase := true, merge := true, cherryPick := false, revert := false,
    conflictedFiles := .ok ["a.txt"] }

/-- Only a merge in progress. -/
def envMergeOnly : ConflictEnv :=
  { rebase := false, merge := true, cherryPick := false, revert := false,
    conflictedFiles := .ok [] }

/-- Witness for C6: concrete marker snapshots exercising the quit/abort
split and the rebase-over-merge priority. -/
theorem abort_conflicts_priority_witness :
    abort_conflicts envRebaseClean = .ok .rebaseQuit ∧
    abort_conflicts envRebaseConflicted = .ok .rebaseAbort ∧
    abort_conflicts envMergeOnly = .ok .mergeAbort :=
  ⟨(abort_conflicts_priority envRebaseClean).1 rfl [] rfl,
   (abort_conflicts_priority envRebaseConflicted).1 rfl ["a.txt"] rfl,
   (abort_conflicts_priority envMergeOnly).2.1 rfl rfl⟩

/-! ### Squash-merge guards (C7, C10) -/

/-- C7: when the task branch is behind the base branch (behind > 0),
`merge_changes` returns the branches-diverged error computed from that
count before issuing any mutating git command — the mutation trace is
empty, so repositories and refs are untouched on this path. -/
theorem merge_changes_diverged_no_mutation (env : MergeEnv)
    (base_worktree_path task_branch_name base_branch_name commit_message : String)
    (ahead behind : Nat)
    (hst : env.branchStatus = .ok (ahead, behind)) (hb : 0 < behind) :
    merge_changes env base_worktree_path task_branch_name base_branch_name
        commit_message =
      ([], .error (.branchesDiverged
        ("Cannot merge: base is " ++ toString behind ++ " commits ahead of task"))) := by
  simp [merge_changes, hst, hb]

/-- Environment for the concrete squash-merge scenarios: the task branch
is 2 commits behind the base branch. -/
def envDiverged : MergeEnv :=
  { branchStatus := .ok (0, 2),
    listWorktrees := .ok [{ path := "/main-wt", branch := some "main" }],
    hasStagedChanges := fun _ => .ok false,
    identityConfigured := fun _ => true,
    checkoutRes := fun _ => .ok "",
    mergeSquashRes := fun _ => .ok "",
    commitRes := fun _ => .ok "",
    revParseHead := fun _ => .ok "deadbeef\n",
    updateRefRes := .ok () }

/-- Witness for C7 at the concrete diverged environment. -/
theorem merge_changes_diverged_no_mutation_witness :
    merge_changes envDiverged "/main-wt" "task" "main" "msg" =
      ([], .error (.branchesDiverged "Cannot merge: base is 2 commits ahead of task")) :=
  merge_changes_diverged_no_mutation envDiverged "/main-wt" "task" "main" "msg"
    0 2 rfl (by decide)

/-- The worktree loop reports the missing base checkout and performs no
mutation when no entry has the base branch checked out. -/
theorem merge_changes_loop_no_base (env : MergeEnv)
    (base_worktree_path task_branch_name base_branch_name commit_message : String) :
    ∀ ws : List WorktreeEntry, (∀ w ∈ ws, w.branch ≠ some base_branch_name) →
      merge_changes_loop env base_worktree_path task_branch_name base_branch_name
          commit_message ws =
        ([], .error (.invalidRepository "Base branch not checked out")) := by
  intro ws
  induction ws with
  | nil => intro _; rfl
  | cons w rest ih =>
      intro hn
      rw [merge_changes_loop, if_neg (hn w (List.mem_cons_self _ _))]
      exact ih fun w' h' => hn w' (List.mem_cons_of_mem _ h')

/-- C10: `merge_changes` silently assumes the base branch is checked out
in some worktree of the base repository; when the worktree list has no
entry with the base branch checked out (and the divergence check passes),
it returns the "Base branch not checked out" error with an empty mutation
trace — no squash-merge, commit, or ref update is performed. -/
theorem merge_changes_base_not_checked_out (env : MergeEnv)
    (base_worktree_path task_branch_name base_branch_name commit_message : String)
    (ahead : Nat) (ws : List WorktreeEntry)
    (hst : env.branchStatus = .ok (ahead, 0))
    (hw : env.listWorktrees = .ok ws)
    (hnone : ∀ w ∈ ws, w.branch ≠ some base_branch_name) :
    merge_changes env base_worktree_path task_branch_name base_branch_name
        commit_message =
      ([], .error (.invalidRepository "Base branch not checked out")) := by
  simp only [merge_changes, hst, hw, Nat.lt_irrefl, if_false, ite_false,
    gt_iff_lt]
  exact merge_changes_loop_no_base env base_worktree_path task_branch_name
    base_branch_name commit_message ws hnone

/-- Environment where no worktree has the base branch checked out. -/
def envNoBase : MergeEnv :=
  { branchStatus := .ok (1, 0),
    listWorktrees := .ok [{ path := "/detached-wt", branch := none },
                          { path := "/task-wt", branch := some "task" }],
    hasStagedChanges := fun _ => .ok false,
    identityConfigured := fun _ => true,
    checkoutRes := fun _ => .ok "",
    mergeSquashRes := fun _ => .ok "",
    commitRes := fun _ => .ok "",
    revParseHead := fun _ => .ok "deadbeef\n",
    updateRefRes := .ok () }

/-- Witness for C10 at the concrete environment. -/
theorem merge_changes_base_not_checked_out_witness :
    merge_changes envNoBase "/main-wt" "task" "main" "msg" =
      ([], .error (.invalidRepository "Base branch not checked out")) :=
  merge_changes_base_not_checked_out envNoBase "/main-wt" "task" "main" "msg" 1
    [{ path := "/detached-wt", branch := none },
     { path := "/task-wt", branch := some "task" }]
    rfl rfl (by decide)

/-! ### Diff invariant (C5) -/

/-- `read_blob_content` never yields content for a binary blob. -/
theorem read_blob_content_binary_none (repo : BlobStore) (oid : String) (b : Blob)
    (hb : repo oid = some b) (hbin : b.is_binary = true) :
    (read_blob_content repo oid).toOption = none := by
  by_cases hz : oid = ""
  · simp [read_blob_content, hz, Except.toOption]
  · simp [read_blob_content, hz, hb, hbin, Except.toOption]

/-- Under the six tree-delta statuses, the converted change kind is
`Added` exactly for an `Added` status. -/
theorem convert_change_eq_added (st : DeltaStatus)
    (hst : st = .added ∨ st = .deleted ∨ st = .modified ∨
      st = .renamed ∨ st = .copied ∨ st = .typechange) :
    convert_change st = .added ↔ st = .added := by
  rcases hst with h | h | h | h | h | h <;> rw [h] <;> simp [convert_change]

/-- Under the six tree-delta statuses, the converted change kind is
`Deleted` exactly for a `Deleted` status. -/
theorem convert_change_eq_deleted (st : DeltaStatus)
    (hst : st = .added ∨ st = .deleted ∨ st = .modified ∨
      st = .renamed ∨ st = .copied ∨ st = .typechange) :
    convert_change st = .deleted ↔ st = .deleted := by
  rcases hst with h | h | h | h | h | h <;> rw [h] <;> simp [convert_change]

/-- The cap test holds for a resolving, non-binary, oversized blob. -/
theorem blob_exceeds_cap_of (repo : BlobStore) (oid : String) (b : Blob)
    (hz : oid ≠ "") (hb : repo oid = some b) (hbin : b.is_binary = false)
    (hsize : MAX_INLINE_DIFF_BYTES < b.size) :
    blob_exceeds_cap repo oid = true := by
  simp [blob_exceeds_cap, hz, hb, hbin, hsize]

/-- The invariant of one converted delta (the body of C5). -/
def diff_invariant (repo : BlobStore) (d : DiffDelta) (f : Diff) : Prop :=
  (f.old_path = none ↔ f.change = .added) ∧
  (f.new_path = none ↔ f.change = .deleted) ∧
  (f.change = .added → f.old_content = none) ∧
  (f.change = .deleted → f.new_content = none) ∧
  (∀ b, repo d.old_file.oid = some b → b.is_binary = true → f.old_content = none) ∧
  (∀ b, repo d.new_file.oid = some b → b.is_binary = true → f.new_content = none) ∧
  ((∃ b, ((repo d.old_file.oid = some b ∧ d.status ≠ .added) ∨
          (repo d.new_file.oid = some b ∧ d.status ≠ .deleted)) ∧
         b.is_binary = false ∧ MAX_INLINE_DIFF_BYTES < b.size) →
    f.content_omitted = true ∧ f.old_content = none ∧ f.new_content = none)

/-- The conversion of a single well-formed tree-to-tree delta satisfies
the claimed path/content/omission invariant. -/
theorem convert_delta_invariant (repo : BlobStore) (d : DiffDelta) (f : Diff)
    (hwf : wf_tree_delta repo d) (h : convert_delta repo d = some f) :
    diff_invariant repo d f := by
  obtain ⟨hst, hop, hnp, hoz, hnz, hores, hnres⟩ := hwf
  obtain ⟨po, hpo⟩ := Option.isSome_iff_exists.mp hop
  obtain ⟨pn, hpn⟩ := Option.isSome_iff_exists.mp hnp
  have hnun : d.status ≠ .unreadable := by
    rcases hst with h' | h' | h' | h' | h' | h' <;> rw [h'] <;> simp
  simp only [convert_delta, hnun, if_neg, ite_false, if_false,
    Option.some.injEq] at h
  subst h
  unfold diff_invariant
  refine ⟨?_, ?_, ?_, ?_, ?_, ?_, ?_⟩
  · dsimp only
    rw [convert_change_eq_added d.status hst]
    by_cases hA : d.status = .added
    · simp [hA]
    · simp [hA, hpo]
  · dsimp only
    rw [convert_change_eq_deleted d.status hst]
    by_cases hD : d.status = .deleted
    · simp [hD]
    · simp [hD, hpn]
  · intro hch
    dsimp only at hch ⊢
    rw [convert_change_eq_added d.status hst] at hch
    simp [hch]
  · intro hch
    dsimp only at hch ⊢
    rw [convert_change_eq_deleted d.status hst] at hch
    simp [hch]
  · intro b hb hbin
    dsimp only
    split
    · rfl
    · exact read_blob_content_binary_none repo _ b hb hbin
  · intro b hb hbin
    dsimp only
    split
    · rfl
    · exact read_blob_content_binary_none repo _ b hb hbin
  · rintro ⟨b, hside, hbinF, hsize⟩
    rcases hside with ⟨hb, hne⟩ | ⟨hb, hne⟩
    · have hzo : d.old_file.oid ≠ "" := fun hc => hne (hoz.mp hc)
      have hcap := blob_exceeds_cap_of repo _ b hzo hb hbinF hsize
      refine ⟨?_, ?_, ?_⟩ <;> simp [hne, hcap]
    · have hzn : d.new_file.oid ≠ "" := fun hc => hne (hnz.mp hc)
      have hcap := blob_exceeds_cap_of repo _ b hzn hb hbinF hsize
      refine ⟨?_, ?_, ?_⟩ <;> simp [hne, hcap]

/-- C5: every `Diff` that `get_diffs` returns — the conversion of the
computed tree-to-tree delta list, for any target and path filter — has
`old_path` absent iff the change kind is `Added`, `new_path` absent iff
the change kind is `Deleted`, content absent for a binary blob or a
missing side, and both contents absent with `content_omitted = true`
whenever a non-binary blob on either existing side exceeds the 2 MiB
cap. -/
theorem get_diffs_invariant (repo : BlobStore) (deltas : List DiffDelta)
    (hwf : ∀ d ∈ deltas, wf_tree_delta repo d) :
    ∀ f ∈ convert_diff_to_file_diffs repo deltas,
      ∃ d ∈ deltas, convert_delta repo d = some f ∧ diff_invariant repo d f := by
  intro f hf
  obtain ⟨d, hd, hconv⟩ := List.mem_filterMap.mp hf
  exact ⟨d, hd, hconv, convert_delta_invariant repo d f (hwf d hd) hconv⟩

/-- Concrete object database for the diff witness. -/
def repo5 : BlobStore := fun oid =>
  if oid = "aaa" then some { is_binary := false, size := 5, content := some "hello" }
  else if oid = "bbb" then some { is_binary := false, size := 6, content := some "hello2" }
  else none

/-- A concrete modification delta over `repo5`. -/
def delta5 : DiffDelta :=
  { status := .modified,
    old_file := { oid := "aaa", path := some "f.txt" },
    new_file := { oid := "bbb", path := some "f.txt" } }

/-- The diff `convert_delta` produces for `delta5`. -/
def diff5 : Diff :=
  { change := .modified, old_path := some "f.txt", new_path := some "f.txt",
    old_content := some "hello", new_content := some "hello2",
    content_omitted := false }

/-- Witness for C5 at the concrete one-delta diff. -/
theorem get_diffs_invariant_witness :
    ∃ d ∈ [delta5], convert_delta repo5 d = some diff5 ∧ diff_invariant repo5 d diff5 :=
  get_diffs_invariant repo5 [delta5]
    (by
      intro d hd
      rw [List.mem_singleton] at hd
      subst hd
      unfold wf_tree_delta
      refine ⟨?_, ?_, ?_, ?_, ?_, ?_, ?_⟩ <;> decide)
    diff5 (by decide)

/-! ### Worktree-list parsing (C8) -/

/-- Porcelain output of `git worktree list --porcelain` for a non-bare
repository with one linked worktree: the primary worktree's record comes
first and, like every checked-out worktree's record, contains a HEAD
line. -/
def porcelainMain : String :=
  "worktree /repo\nHEAD 1111111111111111111111111111111111111111\nbranch refs/heads/main\n\nworktree /repo/wt\nHEAD 2222222222222222222222222222222222222222\nbranch refs/heads/task\n\n"

/-- C8 counterexample: on the porcelain output of a non-bare repository
the primary (main) worktree's record has a HEAD line, so `list_worktrees`
emits an entry for it — the primary worktree is not excluded from the
returned list. -/
theorem list_worktrees_includes_primary_cex :
    list_worktrees porcelainMain =
      [{ path := "/repo", branch := some "main" },
       { path := "/repo/wt", branch := some "task" }] ∧
    ¬ ({ path := "/repo", branch := some "main" } : WorktreeEntry) ∉
        list_worktrees porcelainMain := by
  constructor
  · decide
  · decide

/-- Parsing the token lines of one record from a fresh record state fills
the three fields, the branch via the `refs/heads/` stripping. -/
theorem parse_record_toks (r : PorcelainRecord) (acc : List WorktreeEntry) :
    (record_toks r).foldl parse_tok
        { path := none, head := none, branch := none, acc := acc } =
      { path := some r.path, head := r.head,
        branch := r.branch.bind stripRefsHeads, acc := acc } := by
  cases hh : r.head <;> cases hb : r.branch <;>
    simp [record_toks, parse_tok, hh, hb]

/-- Parsing a blank token closes the current record. -/
theorem parse_tok_blank (st : PState) : parse_tok st .blank = flush_record st := rfl

/-- Closing a record that has both a path and a HEAD pushes its entry and
fully resets the state. -/
theorem flush_record_push (p h : String) (b : Option String)
    (acc : List WorktreeEntry) :
    flush_record { path := some p, head := some h, branch := b, acc := acc } =
      { path := none, head := none, branch := none,
        acc := acc ++ [{ path := p, branch := b }] } := rfl

/-- Closing a record without a HEAD line pushes nothing; the branch field
is not reset. -/
theorem flush_record_skip (p : String) (b : Option String)
    (acc : List WorktreeEntry) :
    flush_record { path := some p, head := none, branch := b, acc := acc } =
      { path := none, head := none, branch := b, acc := acc } := rfl

/-- Rendering unfolds one record and its separating blank line. -/
theorem render_toks_cons₂ (r r2 : PorcelainRecord) (rest : List PorcelainRecord) :
    render_toks (r :: r2 :: rest) =
      record_toks r ++ .blank :: render_toks (r2 :: rest) := rfl

/-- The parsing loop over rendered records, generalized over the already
accumulated entries. -/
theorem parse_render_go (records : List PorcelainRecord) :
    ∀ acc : List WorktreeEntry,
      (∀ r ∈ records, r.head = none → r.branch = none) →
      (flush_record ((render_toks records).foldl parse_tok
          { path := none, head := none, branch := none, acc := acc })).acc =
        acc ++ expected_entries records := by
  induction records with
  | nil =>
      intro acc _
      simp [render_toks, flush_record, expected_entries]
  | cons r rest ih =>
      intro acc hwf
      have hwf' : ∀ r' ∈ rest, r'.head = none → r'.branch = none :=
        fun r' h' => hwf r' (List.mem_cons_of_mem _ h')
      cases rest with
      | nil =>
          rw [show render_toks [r] = record_toks r from rfl, parse_record_toks]
          cases hh : r.head with
          | some h =>
              rw [flush_record_push]
              simp [expected_entries, hh]
          | none =>
              have hb := hwf r (List.mem_cons_self _ _) hh
              rw [hb]
              simp only [Option.none_bind]
              rw [flush_record_skip]
              simp [expected_entries, hh]
      | cons r2 rest2 =>
          rw [render_toks_cons₂, List.foldl_append, parse_record_toks,
            List.foldl_cons, parse_tok_blank]
          cases hh : r.head with
          | some h =>
              rw [flush_record_push, ih _ hwf']
              simp [expected_entries, hh]
          | none =>
              have hb := hwf r (List.mem_cons_self _ _) hh
              rw [hb]
              simp only [Option.none_bind]
              rw [flush_record_skip, ih _ hwf']
              simp [expected_entries, hh]

/-- C8 (amended): the parser turns the blank-line-delimited porcelain
records into entries, emitting one entry exactly for each record that
contains a HEAD line (with the branch read from its `refs/heads/` ref);
records without a HEAD line — a bare primary worktree — are the only ones
skipped.  In particular the primary worktree's record, which carries a
HEAD line in a non-bare repository, is included, in list order. -/
theorem list_worktrees_parses_head_records (records : List PorcelainRecord)
    (hwf : ∀ r ∈ records, r.head = none → r.branch = none) :
    list_worktrees_toks (render_toks records) = expected_entries records := by
  unfold list_worktrees_toks
  rw [parse_render_go records [] hwf]
  rfl

/-- Concrete record list for the C8 witness: a primary worktree with
HEAD, a linked worktree with HEAD, and a bare headless record. -/
def recs8 : List PorcelainRecord :=
  [{ path := "/repo", head := some "1111", branch := some "refs/heads/main" },
   { path := "/repo/wt", head := some "2222", branch := some "refs/heads/task" },
   { path := "/bare", head := none, branch := none }]

/-- Witness for the amended C8 on the concrete record list. -/
theorem list_worktrees_parses_head_records_witness :
    list_worktrees_toks (render_toks recs8) = expected_entries recs8 :=
  list_worktrees_parses_head_records recs8 (by decide)

end VibeGit
